import Mathlib

/-
Shallow embedding of scrapy/core/http2/protocol.py: the HTTP/2 connection
session (class H2ClientProtocol) that multiplexes request/response streams
over one connection. Stateful Python code is modelled by explicit state
passing; Python exceptions (KeyError, TypeError) are modelled as an
`Option PyError` component returned next to the successor state, with the
state component left as it was at the moment the exception was raised.
The external collaborators (the h2 codec, the Twisted transport and
Deferred) are modelled by the small pieces of their state the session
observes and mutates.
-/

namespace Scrapy

/-- h2.errors.ErrorCodes.NO_ERROR, the cooperative GOAWAY code. -/
def ErrorCodes.NO_ERROR : Nat := 0

/-- h2.errors.ErrorCodes.PROTOCOL_ERROR, the abnormal GOAWAY code. -/
def ErrorCodes.PROTOCOL_ERROR : Nat := 1

/-- scrapy.core.http2.stream.StreamCloseReason values used by protocol.py. -/
inductive StreamCloseReason where
  | ENDED
  | RESET
  | CONNECTION_LOST
  | INACTIVE
deriving DecidableEq, Repr

/-- Failure causes accumulated in H2ClientProtocol._conn_lost_errors;
connectionDone is the clean-close reason Twisted passes by default. -/
inductive ConnError where
  | connectionDone
  | protocolError (info : Nat)
  | timeoutError
  | remoteTerminatedConnection
  | invalidNegotiatedProtocol
  | transportFailure (reason : Nat)
deriving DecidableEq, Repr

/-- Python runtime exceptions that the session code can raise. -/
inductive PyError where
  | keyError (key : Nat)
  | typeError
deriving DecidableEq, Repr

/-- Abstract view of the byte chunks the codec queues for the transport. -/
inductive OutFrame where
  | preamble
  | goaway (error_code : Nat)
  | other (tag : Nat)
deriving DecidableEq, Repr

/-- Modelled from the spec: scrapy/core/http2/stream.py is not among the
sources, only its caller protocol.py is.  The Stream fields and operations
follow the spec's Stream data model and operations: `requestSent` set by
`initiate`, a single-assignment completion fulfilled exactly once by an
idempotent `close(reason, causes)`, and counters recording how often the
receive operations were invoked. -/
structure Stream where
  stream_id : Nat
  request_payload : Nat := 0
  request_sent : Bool := false
  closed : Bool := false
  close_reason : Option StreamCloseReason := none
  close_errors : List ConnError := []
  completion_fulfilled : Nat := 0
  window_updates : Nat := 0
  data_frames : Nat := 0
  headers_received : Nat := 0
deriving DecidableEq, Repr

/-- Modelled from the spec: Stream.initiate_request marks the request as
handed to the codec (requestSent := true). -/
def Stream.initiate_request (s : Stream) : Stream :=
  { s with request_sent := true }

/-- Modelled from the spec: Stream.close is idempotent; on the first call it
records the reason and causes and fulfills the completion exactly once. -/
def Stream.close (s : Stream) (reason : StreamCloseReason)
    (errors : List ConnError) : Stream :=
  if s.closed then s
  else
    { s with
      closed := true
      close_reason := some reason
      close_errors := errors
      completion_fulfilled := s.completion_fulfilled + 1 }

/-- Modelled from the spec: Stream.receive_data accumulates response data. -/
def Stream.receive_data (s : Stream) : Stream :=
  { s with data_frames := s.data_frames + 1 }

/-- Modelled from the spec: Stream.receive_headers accumulates headers. -/
def Stream.receive_headers (s : Stream) : Stream :=
  { s with headers_received := s.headers_received + 1 }

/-- Modelled from the spec: Stream.receive_window_update lets the stream
send leftover data after a flow-control window update. -/
def Stream.receive_window_update (s : Stream) : Stream :=
  { s with window_updates := s.window_updates + 1 }

/-- The slice of the external h2.connection.H2Connection state the session
reads (settings limits, open stream counts) and writes (queued outbound
frames, close codes). -/
structure H2Connection where
  local_max_concurrent_streams : Nat := 100
  remote_max_concurrent_streams : Nat := 100
  open_outbound_streams : Nat := 0
  open_inbound_streams : Nat := 0
  outbound : List OutFrame := []
  close_codes : List Nat := []
deriving DecidableEq, Repr

/-- h2's initiate_connection queues the connection preamble. -/
def H2Connection.initiate_connection (c : H2Connection) : H2Connection :=
  { c with outbound := c.outbound ++ [OutFrame.preamble] }

/-- h2's close_connection queues a GOAWAY frame with the given code. -/
def H2Connection.close_connection (c : H2Connection) (error_code : Nat) :
    H2Connection :=
  { c with
    outbound := c.outbound ++ [OutFrame.goaway error_code]
    close_codes := c.close_codes ++ [error_code] }

/-- h2's data_to_send drains and returns the queued outbound frames. -/
def H2Connection.data_to_send (c : H2Connection) :
    List OutFrame × H2Connection :=
  (c.outbound, { c with outbound := [] })

/-- The h2 events protocol.py dispatches on (h2.events classes). -/
inductive H2Event where
  | ConnectionTerminated
  | DataReceived (stream_id : Nat)
  | ResponseReceived (stream_id : Nat)
  | SettingsAcknowledged
  | StreamEnded (stream_id : Nat)
  | StreamReset (stream_id : Nat)
  | WindowUpdated (stream_id : Nat)
  | UnknownFrameReceived
deriving DecidableEq, Repr

/-- An argument passed to H2ClientProtocol.request: either a genuine
scrapy.http.Request (payload opaque) or a value of any other type. -/
inductive RequestArg where
  | request (payload : Nat)
  | notRequest (payload : Nat)
deriving DecidableEq, Repr

/-- Outcome of the external codec's conn.receive_data(data): either the
ordered event list it produced or a raised ProtocolError. -/
inductive FeedOutcome where
  | protocolError (info : Nat)
  | events (es : List H2Event)
deriving DecidableEq, Repr

/-- Result of one call to the external codec's conn.receive_data(data):
the frames the codec itself queued while consuming the bytes, together
with either the ordered event list or a raised ProtocolError. -/
structure FeedResult where
  produced : List OutFrame := []
  result : FeedOutcome
deriving DecidableEq, Repr

/-- State of H2ClientProtocol (protocol.py).  `streams` is the dict keyed
by stream id in insertion order, `pending_request_stream_pool` is the deque
of stream ids awaiting admission, `active_streams` is the Python int
counter (it may in principle go negative, hence Int).  The transport and
the conn-lost Deferred are modelled by the flags the session drives:
`transport_written` is everything flushed, `lose_connection_called` records
transport.loseConnection(), `conn_lost_deferred_fires` counts invocations
of the conn-lost Deferred's callback, and `closed_stream_log` records every
Stream object at the moment the session closed it. -/
structure H2ClientProtocol where
  conn : H2Connection := {}
  next_stream_id : Nat := 1
  streams : List (Nat × Stream) := []
  pending_request_stream_pool : List Nat := []
  active_streams : Int := 0
  settings_acknowledged : Bool := false
  conn_lost_errors : List ConnError := []
  has_conn_lost_deferred : Bool := true
  conn_lost_deferred_fires : Nat := 0
  transport_connected : Bool := false
  transport_written : List OutFrame := []
  lose_connection_called : Bool := false
  timeout_active : Bool := false
  certificate_set : Bool := false
  closed_stream_log : List Stream := []
deriving DecidableEq, Repr

/-- First-match lookup in the stream dict (Python dict indexing). -/
def lookupStream : List (Nat × Stream) → Nat → Option Stream
  | [], _ => none
  | (k, st) :: rest, sid => if k = sid then some st else lookupStream rest sid

/-- In-place update of the stream held under a key of the dict (mutating
the shared Stream object held there). -/
def updateStream : List (Nat × Stream) → Nat → (Stream → Stream) →
    List (Nat × Stream)
  | [], _, _ => []
  | (k, st) :: rest, sid, f =>
    if k = sid then (k, f st) :: updateStream rest sid f
    else (k, st) :: updateStream rest sid f

/-- Removal of a key from the stream dict (dict.pop). -/
def removeStream : List (Nat × Stream) → Nat → List (Nat × Stream)
  | [], _ => []
  | (k, st) :: rest, sid =>
    if k = sid then removeStream rest sid else (k, st) :: removeStream rest sid

/-- Number of registered streams whose request has been handed to the
codec, i.e. streams in the admitted state. -/
def admittedCountOf (m : List (Nat × Stream)) : Nat :=
  m.countP (fun p => p.2.request_sent)

namespace H2ClientProtocol

/-- H2ClientProtocol.h2_connected: transport connected and settings
acknowledged by the remote. -/
def h2_connected (s : H2ClientProtocol) : Bool :=
  s.transport_connected && s.settings_acknowledged

/-- H2ClientProtocol.allowed_max_concurrent_streams: minimum of the local
and remote advertised limits, recomputed on each use. -/
def allowed_max_concurrent_streams (s : H2ClientProtocol) : Nat :=
  min s.conn.local_max_concurrent_streams s.conn.remote_max_concurrent_streams

/-- Number of registered streams of the session in the admitted state. -/
def admittedCount (s : H2ClientProtocol) : Nat :=
  admittedCountOf s.streams

/-- H2ClientProtocol._write_to_transport: drain conn.data_to_send() and
write it to the transport (the idle-timeout reset does not change any
modelled field). -/
def write_to_transport (s : H2ClientProtocol) : H2ClientProtocol :=
  let r := s.conn.data_to_send
  { s with conn := r.2, transport_written := s.transport_written ++ r.1 }

/-- The while loop of H2ClientProtocol._send_pending_requests, recursing on
the deque of pending stream ids kept in sync with the state's field. -/
def sendLoop : H2ClientProtocol → List Nat → H2ClientProtocol
  | s, [] => { s with pending_request_stream_pool := [] }
  | s, sid :: rest =>
    if s.active_streams < (s.allowed_max_concurrent_streams : Int) ∧
        s.h2_connected = true then
      sendLoop
        { s with
          active_streams := s.active_streams + 1
          streams := updateStream s.streams sid Stream.initiate_request
          pending_request_stream_pool := rest }
        rest
    else { s with pending_request_stream_pool := sid :: rest }

/-- H2ClientProtocol._send_pending_requests: start pending streams FIFO
while under the concurrency limit and connected. -/
def send_pending_requests (s : H2ClientProtocol) : H2ClientProtocol :=
  sendLoop s s.pending_request_stream_pool

/-- H2ClientProtocol.pop_stream: remove the stream from the dict (KeyError,
i.e. `none`, if absent), decrement the active counter, re-run admission;
returns the removed stream and the successor state. -/
def pop_stream (s : H2ClientProtocol) (stream_id : Nat) :
    Option (Stream × H2ClientProtocol) :=
  match lookupStream s.streams stream_id with
  | none => none
  | some st =>
    some (st,
      send_pending_requests
        { s with
          streams := removeStream s.streams stream_id
          active_streams := s.active_streams - 1 })

/-- H2ClientProtocol._new_stream: allocate the next odd stream id and
register a fresh Stream under it. -/
def new_stream (s : H2ClientProtocol) (payload : Nat) :
    Stream × H2ClientProtocol :=
  let st : Stream := { stream_id := s.next_stream_id, request_payload := payload }
  (st,
    { s with
      next_stream_id := s.next_stream_id + 2
      streams := s.streams ++ [(st.stream_id, st)] })

/-- Body of H2ClientProtocol.request after the isinstance guard has
passed: create and register the stream, append it to the pending pool, and
attempt admission. -/
def requestAccepted (s : H2ClientProtocol) (payload : Nat) : H2ClientProtocol :=
  let r := s.new_stream payload
  send_pending_requests
    { r.2 with
      pending_request_stream_pool :=
        r.2.pending_request_stream_pool ++ [r.1.stream_id] }

/-- H2ClientProtocol.request: raises TypeError for a non-Request argument
before touching any state, otherwise runs the accepted-request body. -/
def request (s : H2ClientProtocol) (arg : RequestArg) :
    H2ClientProtocol × Option PyError :=
  match arg with
  | RequestArg.notRequest _ => (s, some PyError.typeError)
  | RequestArg.request p => (s.requestAccepted p, none)

/-- H2ClientProtocol.connectionMade: start the idle timer, record the
transport, queue the connection preamble and flush it. -/
def connectionMade (s : H2ClientProtocol) : H2ClientProtocol :=
  write_to_transport
    { s with
      timeout_active := true
      transport_connected := true
      conn := s.conn.initiate_connection }

/-- H2ClientProtocol._lose_connection_with_error: record the causes and ask
the transport to close. -/
def lose_connection_with_error (s : H2ClientProtocol)
    (errors : List ConnError) : H2ClientProtocol :=
  { s with
    conn_lost_errors := s.conn_lost_errors ++ errors
    lose_connection_called := true }

/-- The GOAWAY code chosen by H2ClientProtocol.timeoutConnection:
PROTOCOL_ERROR when any stream is open at the codec or the session's
active counter is positive, NO_ERROR otherwise. -/
def chosenTimeoutCode (s : H2ClientProtocol) : Nat :=
  if s.conn.open_outbound_streams > 0 ∨ s.conn.open_inbound_streams > 0 ∨
      s.active_streams > 0 then
    ErrorCodes.PROTOCOL_ERROR
  else
    ErrorCodes.NO_ERROR

/-- H2ClientProtocol.timeoutConnection: close the codec connection with the
chosen code, flush, then lose the connection with a TimeoutError cause. -/
def timeoutConnection (s : H2ClientProtocol) : H2ClientProtocol :=
  lose_connection_with_error
    (write_to_transport
      { s with conn := s.conn.close_connection (chosenTimeoutCode s) })
    [ConnError.timeoutError]

/-- The close applied to each still-registered stream during connection
teardown: CONNECTION_LOST with the accumulated causes if its request was
sent, INACTIVE otherwise. -/
def closeForConnLost (errors : List ConnError) (st : Stream) : Stream :=
  if st.request_sent then st.close StreamCloseReason.CONNECTION_LOST errors
  else st.close StreamCloseReason.INACTIVE []

/-- H2ClientProtocol.connectionLost: cancel the idle timeout, append the
reason to the accumulated causes — the source guards the append with
reason.check(connectionDone), but connectionDone is a Failure instance
while Failure.check matches only exception classes and their qualified
names, so the check always returns None and the reason is appended on
every call, the clean close included — then invoke the conn-lost
Deferred's callback if one was given, force-close every registered
stream, subtract the number of registered streams from the active
counter, clear the dict and the pending deque, and close the codec
connection with its default NO_ERROR code. -/
def connectionLost (s : H2ClientProtocol) (reason : ConnError) :
    H2ClientProtocol :=
  let s1 := { s with timeout_active := false, transport_connected := false }
  let s2 :=
    { s1 with conn_lost_errors := s1.conn_lost_errors ++ [reason] }
  let s3 :=
    if s2.has_conn_lost_deferred then
      { s2 with conn_lost_deferred_fires := s2.conn_lost_deferred_fires + 1 }
    else s2
  { s3 with
    closed_stream_log :=
      s3.closed_stream_log ++
        s3.streams.map (fun p => closeForConnLost s3.conn_lost_errors p.2)
    active_streams := s3.active_streams - s3.streams.length
    streams := []
    pending_request_stream_pool := []
    conn := s3.conn.close_connection ErrorCodes.NO_ERROR }

/-- One event case of H2ClientProtocol._handle_events together with the
per-event handler it calls; the second component is a raised Python
exception (KeyError for an unregistered stream id), with the state
unchanged since the lookup fails before any mutation. -/
def handleEvent (s : H2ClientProtocol) :
    H2Event → H2ClientProtocol × Option PyError
  | H2Event.ConnectionTerminated =>
    (s.lose_connection_with_error [ConnError.remoteTerminatedConnection], none)
  | H2Event.DataReceived sid =>
    match lookupStream s.streams sid with
    | none => (s, some (PyError.keyError sid))
    | some _ =>
      ({ s with streams := updateStream s.streams sid Stream.receive_data }, none)
  | H2Event.ResponseReceived sid =>
    match lookupStream s.streams sid with
    | none => (s, some (PyError.keyError sid))
    | some _ =>
      ({ s with streams := updateStream s.streams sid Stream.receive_headers },
        none)
  | H2Event.SettingsAcknowledged =>
    ({ send_pending_requests { s with settings_acknowledged := true } with
        certificate_set := true }, none)
  | H2Event.StreamEnded sid =>
    match s.pop_stream sid with
    | none => (s, some (PyError.keyError sid))
    | some (st, s1) =>
      ({ s1 with
          closed_stream_log :=
            s1.closed_stream_log ++ [st.close StreamCloseReason.ENDED []] },
        none)
  | H2Event.StreamReset sid =>
    match s.pop_stream sid with
    | none => (s, some (PyError.keyError sid))
    | some (st, s1) =>
      ({ s1 with
          closed_stream_log :=
            s1.closed_stream_log ++ [st.close StreamCloseReason.RESET []] },
        none)
  | H2Event.WindowUpdated sid =>
    if sid = 0 then
      ({ s with
          streams := s.streams.map (fun p => (p.1, p.2.receive_window_update)) },
        none)
    else
      match lookupStream s.streams sid with
      | none => (s, some (PyError.keyError sid))
      | some _ =>
        ({ s with
            streams := updateStream s.streams sid Stream.receive_window_update },
          none)
  | H2Event.UnknownFrameReceived => (s, none)

/-- H2ClientProtocol._handle_events: dispatch the events in order; a raised
exception aborts the loop, keeping the mutations already made. -/
def handleEvents (s : H2ClientProtocol) :
    List H2Event → H2ClientProtocol × Option PyError
  | [] => (s, none)
  | e :: rest =>
    match s.handleEvent e with
    | (s1, none) => s1.handleEvents rest
    | (s1, some err) => (s1, some err)

/-- H2ClientProtocol.dataReceived: feed the bytes to the codec; on a
ProtocolError record it and begin teardown, otherwise dispatch the events;
in every case (the finally block) flush the codec's outbound frames. -/
def dataReceived (s : H2ClientProtocol) (feed : FeedResult) :
    H2ClientProtocol × Option PyError :=
  let s1 :=
    { s with conn := { s.conn with outbound := s.conn.outbound ++ feed.produced } }
  match feed.result with
  | FeedOutcome.protocolError e =>
    (write_to_transport
      (s1.lose_connection_with_error [ConnError.protocolError e]), none)
  | FeedOutcome.events events =>
    let r := s1.handleEvents events
    (write_to_transport r.1, r.2)

end H2ClientProtocol

/-- The admission-relevant operations of the session named by the spec's
invariant: request submission, the admission algorithm itself, stream end,
stream reset, settings acknowledgement and connection loss. -/
inductive SessionOp where
  | submit (payload : Nat)
  | admission
  | streamEndedEv (sid : Nat)
  | streamResetEv (sid : Nat)
  | settingsAckEv
  | connLostEv (reason : ConnError)
deriving DecidableEq, Repr

/-- Successor state of one session operation (for the event-driven ones,
the state component of the dispatch). -/
def applySessionOp (s : H2ClientProtocol) : SessionOp → H2ClientProtocol
  | SessionOp.submit p => s.requestAccepted p
  | SessionOp.admission => s.send_pending_requests
  | SessionOp.streamEndedEv sid => (s.handleEvent (H2Event.StreamEnded sid)).1
  | SessionOp.streamResetEv sid => (s.handleEvent (H2Event.StreamReset sid)).1
  | SessionOp.settingsAckEv => (s.handleEvent H2Event.SettingsAcknowledged).1
  | SessionOp.connLostEv r => s.connectionLost r

/-- Side condition under which an operation is dispatched in a run of the
protocol: stream-end and stream-reset events name a registered stream
whose request was sent (the peer can only end or reset streams that were
actually opened on the wire). -/
def SessionOpOK (s : H2ClientProtocol) : SessionOp → Prop
  | SessionOp.streamEndedEv sid =>
    ∃ st, lookupStream s.streams sid = some st ∧ st.request_sent = true
  | SessionOp.streamResetEv sid =>
    ∃ st, lookupStream s.streams sid = some st ∧ st.request_sent = true
  | _ => True

/-- The spec's Session invariant on the active counter: it is exactly the
number of admitted registered streams, is nonnegative, and is bounded by
the allowed concurrency. -/
def SessionInv (s : H2ClientProtocol) : Prop :=
  s.active_streams = (s.admittedCount : Int) ∧
  0 ≤ s.active_streams ∧
  s.active_streams ≤ (s.allowed_max_concurrent_streams : Int)

/-- Bookkeeping well-formedness maintained by the session: stream-dict keys
are unique and below the id counter, pending ids are registered, not yet
admitted, and queued at most once. -/
structure SessionWF (s : H2ClientProtocol) : Prop where
  keys_nodup : (s.streams.map Prod.fst).Nodup
  keys_lt : ∀ k ∈ s.streams.map Prod.fst, k < s.next_stream_id
  pool_mem : ∀ i ∈ s.pending_request_stream_pool,
    (lookupStream s.streams i).isSome = true
  pool_unsent : ∀ i ∈ s.pending_request_stream_pool,
    ∀ st, lookupStream s.streams i = some st → st.request_sent = false
  pool_nodup : s.pending_request_stream_pool.Nodup

/-- The streams dict after the admission loop initiated the given ids, in
order. -/
def initiateAll (m : List (Nat × Stream)) : List Nat → List (Nat × Stream)
  | [] => m
  | i :: rest => initiateAll (updateStream m i Stream.initiate_request) rest

/-- The accumulated cause list right after connectionLost appended the
teardown reason (every reason is appended, the clean close included). -/
def connLostErrorsAfter (s : H2ClientProtocol) (reason : ConnError) :
    List ConnError :=
  s.conn_lost_errors ++ [reason]

/-- Boolean test for a stream's close reason. -/
def closeReasonIs (r : StreamCloseReason) (st : Stream) : Bool :=
  decide (st.close_reason = some r)

/-- n requests submitted one after the other on the same session. -/
def submitN (s : H2ClientProtocol) : Nat → H2ClientProtocol
  | 0 => s
  | n + 1 => (submitN s n).requestAccepted 0

/-- A session whose transport is connected but whose settings were never
acknowledged: a submitted request stays registered and queued. -/
def c1Start : H2ClientProtocol := { transport_connected := true }

/-- The session of c1Start after one request was submitted. -/
def c1AfterSubmit : H2ClientProtocol := c1Start.requestAccepted 0

/-- The session of c1AfterSubmit after the transport connection was lost
with the clean connectionDone reason. -/
def c1AfterLost : H2ClientProtocol := c1AfterSubmit.connectionLost ConnError.connectionDone

/-- An established session with an empty stream registry. -/
def c2State : H2ClientProtocol :=
  { transport_connected := true, settings_acknowledged := true }

/-- A teardown scenario: stream 1 sent its request, stream 3 never did. -/
def c3State : H2ClientProtocol :=
  { transport_connected := true
    settings_acknowledged := true
    next_stream_id := 5
    streams := [(1, { stream_id := 1, request_sent := true }),
                (3, { stream_id := 3 })]
    pending_request_stream_pool := [3]
    active_streams := 1 }

/-- An established session with one registered, still pending stream. -/
def c4State : H2ClientProtocol :=
  { transport_connected := true
    settings_acknowledged := true
    next_stream_id := 3
    streams := [(1, { stream_id := 1 })]
    pending_request_stream_pool := [1] }

/-- A connected session with a conn-lost deferred and no streams. -/
def c5Start : H2ClientProtocol := { transport_connected := true }

/-- The session of c5Start after the transport was lost once. -/
def c5Once : H2ClientProtocol := c5Start.connectionLost ConnError.connectionDone

/-- The session of c5Once after connectionLost was invoked a second time. -/
def c5Twice : H2ClientProtocol := c5Once.connectionLost ConnError.connectionDone

/-- An idle session with no open or active streams. -/
def c6State : H2ClientProtocol := {}

/-- A fresh session, before any request was submitted. -/
def c8Fresh : H2ClientProtocol := {}

/-- A session with two registered streams, ids 1 and 3. -/
def c10State : H2ClientProtocol :=
  { streams := [(1, { stream_id := 1 }), (3, { stream_id := 3 })] }

/-- A fresh session fed one chunk of bytes. -/
def c7State : H2ClientProtocol := {}

/-- A feed on which the codec queued one frame and then raised a
ProtocolError. -/
def c7Feed : FeedResult :=
  { produced := [OutFrame.other 9], result := FeedOutcome.protocolError 7 }

/-- A fresh session handed a non-Request argument. -/
def c9State : H2ClientProtocol := {}

lemma lookupStream_update_self (m : List (Nat × Stream)) (sid : Nat)
    (f : Stream → Stream) :
    lookupStream (updateStream m sid f) sid = (lookupStream m sid).map f := by
  induction m with
  | nil => rfl
  | cons p rest ih =>
    obtain ⟨k, st⟩ := p
    by_cases hk : k = sid
    · subst hk
      simp [updateStream, lookupStream]
    · simp [updateStream, lookupStream, hk, ih]

lemma lookupStream_update_ne (m : List (Nat × Stream)) (sid j : Nat)
    (f : Stream → Stream) (h : j ≠ sid) :
    lookupStream (updateStream m sid f) j = lookupStream m j := by
  induction m with
  | nil => rfl
  | cons p rest ih =>
    obtain ⟨k, st⟩ := p
    by_cases hk : k = sid
    · subst hk
      have hkj : ¬ k = j := fun hh => h hh.symm
      simp [updateStream, lookupStream, hkj, ih]
    · by_cases hkj : k = j
      · simp [updateStream, lookupStream, hk, hkj, h]
      · simp [updateStream, lookupStream, hk, hkj, ih]

lemma keys_update (m : List (Nat × Stream)) (sid : Nat) (f : Stream → Stream) :
    (updateStream m sid f).map Prod.fst = m.map Prod.fst := by
  induction m with
  | nil => rfl
  | cons p rest ih =>
    obtain ⟨k, st⟩ := p
    by_cases hk : k = sid <;> simp [updateStream, hk, ih]

lemma lookupStream_isSome_iff (m : List (Nat × Stream)) (j : Nat) :
    (lookupStream m j).isSome = true ↔ j ∈ m.map Prod.fst := by
  induction m with
  | nil => simp [lookupStream]
  | cons p rest ih =>
    obtain ⟨k, st⟩ := p
    by_cases hk : k = j
    · subst hk
      simp [lookupStream]
    · have hjk : ¬ j = k := fun hh => hk hh.symm
      simp [lookupStream, hk, hjk, ih]

lemma update_not_mem (m : List (Nat × Stream)) (sid : Nat) (f : Stream → Stream)
    (h : sid ∉ m.map Prod.fst) : updateStream m sid f = m := by
  induction m with
  | nil => rfl
  | cons p rest ih =>
    obtain ⟨k, st⟩ := p
    simp only [List.map_cons, List.mem_cons] at h
    push_neg at h
    have hk : ¬ k = sid := fun hh => h.1 hh.symm
    simp [updateStream, hk, ih h.2]

lemma lookupStream_append_left (m m2 : List (Nat × Stream)) (j : Nat)
    (h : (lookupStream m j).isSome = true) :
    lookupStream (m ++ m2) j = lookupStream m j := by
  induction m with
  | nil => simp [lookupStream] at h
  | cons p rest ih =>
    obtain ⟨k, st⟩ := p
    by_cases hk : k = j
    · simp [lookupStream, hk]
    · simp only [lookupStream, if_neg hk] at h
      simp only [List.cons_append, lookupStream, if_neg hk]
      exact ih h

lemma lookupStream_append_right (m m2 : List (Nat × Stream)) (j : Nat)
    (h : lookupStream m j = none) :
    lookupStream (m ++ m2) j = lookupStream m2 j := by
  induction m with
  | nil => rfl
  | cons p rest ih =>
    obtain ⟨k, st⟩ := p
    by_cases hk : k = j
    · simp [lookupStream, hk] at h
    · simp only [lookupStream, if_neg hk] at h
      simp only [List.cons_append, lookupStream, if_neg hk]
      exact ih h

lemma lookupStream_remove_ne (m : List (Nat × Stream)) (sid j : Nat)
    (h : j ≠ sid) :
    lookupStream (removeStream m sid) j = lookupStream m j := by
  induction m with
  | nil => rfl
  | cons p rest ih =>
    obtain ⟨k, st⟩ := p
    by_cases hk : k = sid
    · subst hk
      have hkj : ¬ k = j := fun hh => h hh.symm
      simp [removeStream, lookupStream, hkj, ih]
    · by_cases hkj : k = j
      · simp [removeStream, lookupStream, hk, hkj, h]
      · simp [removeStream, lookupStream, hk, hkj, ih]

lemma keys_remove_sub (m : List (Nat × Stream)) (sid : Nat) :
    ∀ k ∈ (removeStream m sid).map Prod.fst, k ∈ m.map Prod.fst := by
  induction m with
  | nil => simp [removeStream]
  | cons p rest ih =>
    obtain ⟨k, st⟩ := p
    by_cases hk : k = sid
    · simp only [removeStream, if_pos hk]
      intro a ha
      exact List.mem_cons_of_mem _ (ih a ha)
    · simp only [removeStream, if_neg hk, List.map_cons, List.mem_cons]
      intro a ha
      rcases ha with ha | ha
      · exact Or.inl ha
      · exact Or.inr (ih a ha)

lemma keys_remove_nodup (m : List (Nat × Stream)) (sid : Nat)
    (h : (m.map Prod.fst).Nodup) :
    ((removeStream m sid).map Prod.fst).Nodup := by
  induction m with
  | nil => simp [removeStream]
  | cons p rest ih =>
    obtain ⟨k, st⟩ := p
    simp only [List.map_cons, List.nodup_cons] at h
    by_cases hk : k = sid
    · simp only [removeStream, if_pos hk]
      exact ih h.2
    · simp only [removeStream, if_neg hk, List.map_cons, List.nodup_cons]
      exact ⟨fun hm => h.1 (keys_remove_sub rest sid k hm), ih h.2⟩

lemma remove_not_mem (m : List (Nat × Stream)) (sid : Nat)
    (h : sid ∉ m.map Prod.fst) : removeStream m sid = m := by
  induction m with
  | nil => rfl
  | cons p rest ih =>
    obtain ⟨k, st⟩ := p
    simp only [List.map_cons, List.mem_cons] at h
    push_neg at h
    have hk : ¬ k = sid := fun hh => h.1 hh.symm
    simp [removeStream, hk, ih h.2]

lemma countP_remove (m : List (Nat × Stream)) (sid : Nat) (st : Stream)
    (hn : (m.map Prod.fst).Nodup) (hl : lookupStream m sid = some st) :
    admittedCountOf m =
      admittedCountOf (removeStream m sid) +
        (if st.request_sent then 1 else 0) := by
  induction m with
  | nil => simp [lookupStream] at hl
  | cons p rest ih =>
    obtain ⟨k, st0⟩ := p
    simp only [List.map_cons, List.nodup_cons] at hn
    by_cases hk : k = sid
    · subst hk
      simp [lookupStream] at hl
      subst hl
      simp only [removeStream, if_pos rfl]
      rw [remove_not_mem rest k hn.1]
      simp only [admittedCountOf, List.countP_cons]
      by_cases hs : st0.request_sent <;> simp [hs]
    · simp only [lookupStream, if_neg hk] at hl
      simp only [removeStream, if_neg hk]
      simp only [admittedCountOf, List.countP_cons] at ih ⊢
      rw [ih hn.2 hl]
      ring

lemma countP_update_initiate (m : List (Nat × Stream)) (sid : Nat) (st : Stream)
    (hn : (m.map Prod.fst).Nodup) (hl : lookupStream m sid = some st)
    (hu : st.request_sent = false) :
    admittedCountOf (updateStream m sid Stream.initiate_request) =
      admittedCountOf m + 1 := by
  induction m with
  | nil => simp [lookupStream] at hl
  | cons p rest ih =>
    obtain ⟨k, st0⟩ := p
    simp only [List.map_cons, List.nodup_cons] at hn
    by_cases hk : k = sid
    · subst hk
      simp [lookupStream] at hl
      subst hl
      simp only [updateStream, if_pos rfl]
      rw [update_not_mem rest k Stream.initiate_request hn.1]
      simp [admittedCountOf, List.countP_cons, Stream.initiate_request, hu]
    · simp only [lookupStream, if_neg hk] at hl
      simp only [updateStream, if_neg hk]
      simp only [admittedCountOf, List.countP_cons] at ih ⊢
      rw [ih hn.2 hl]
      ring

lemma nodup_append_singleton {α : Type} (l : List α) (a : α) (hl : l.Nodup)
    (ha : a ∉ l) : (l ++ [a]).Nodup := by
  induction l with
  | nil => simp
  | cons b rest ih =>
    simp only [List.nodup_cons] at hl
    simp only [List.mem_cons] at ha
    push_neg at ha
    simp only [List.cons_append, List.nodup_cons]
    refine ⟨?_, ih hl.2 ha.2⟩
    intro hb
    rcases List.mem_append.mp hb with hb | hb
    · exact hl.1 hb
    · simp only [List.mem_singleton] at hb
      exact ha.1 hb.symm

lemma keys_initiateAll (ids : List Nat) :
    ∀ m : List (Nat × Stream),
      (initiateAll m ids).map Prod.fst = m.map Prod.fst := by
  induction ids with
  | nil => intro m; rfl
  | cons i rest ih =>
    intro m
    simp only [initiateAll]
    rw [ih, keys_update]

lemma lookup_initiateAll_not_mem (ids : List Nat) :
    ∀ (m : List (Nat × Stream)) (j : Nat), j ∉ ids →
      lookupStream (initiateAll m ids) j = lookupStream m j := by
  induction ids with
  | nil => intro m j _; rfl
  | cons i rest ih =>
    intro m j hj
    simp only [List.mem_cons] at hj
    push_neg at hj
    simp only [initiateAll]
    rw [ih _ j hj.2, lookupStream_update_ne _ _ _ _ hj.1]

lemma initiateAll_sent_preserved (ids : List Nat) :
    ∀ (m : List (Nat × Stream)) (j : Nat) (st : Stream),
      lookupStream m j = some st → st.request_sent = true →
      ∃ st2, lookupStream (initiateAll m ids) j = some st2 ∧
        st2.request_sent = true := by
  induction ids with
  | nil => intro m j st hl hs; exact ⟨st, hl, hs⟩
  | cons i rest ih =>
    intro m j st hl hs
    simp only [initiateAll]
    by_cases hji : j = i
    · subst hji
      refine ih _ j st.initiate_request ?_ rfl
      rw [lookupStream_update_self, hl]
      rfl
    · refine ih _ j st ?_ hs
      rw [lookupStream_update_ne _ _ _ _ hji]
      exact hl

lemma lookup_initiateAll_sent (ids : List Nat) :
    ∀ (m : List (Nat × Stream)) (j : Nat), j ∈ ids →
      (lookupStream m j).isSome = true →
      ∃ st2, lookupStream (initiateAll m ids) j = some st2 ∧
        st2.request_sent = true := by
  induction ids with
  | nil => intro m j hj _; simp at hj
  | cons i rest ih =>
    intro m j hj hsome
    by_cases hji : j = i
    · subst hji
      obtain ⟨st, hl⟩ := Option.isSome_iff_exists.mp hsome
      simp only [initiateAll]
      refine initiateAll_sent_preserved rest _ j st.initiate_request ?_ rfl
      rw [lookupStream_update_self, hl]
      rfl
    · have hjr : j ∈ rest := by
        rcases List.mem_cons.mp hj with hcase | hcase
        · exact absurd hcase hji
        · exact hcase
      simp only [initiateAll]
      refine ih _ j hjr ?_
      rw [lookupStream_update_ne _ _ _ _ hji]
      exact hsome

lemma countP_initiateAll (ids : List Nat) :
    ∀ m : List (Nat × Stream), (m.map Prod.fst).Nodup → ids.Nodup →
      (∀ i ∈ ids, ∃ st, lookupStream m i = some st ∧ st.request_sent = false) →
      admittedCountOf (initiateAll m ids) = admittedCountOf m + ids.length := by
  induction ids with
  | nil => intro m _ _ _; rfl
  | cons i rest ih =>
    intro m hkeys hnodup hall
    obtain ⟨st, hl, hu⟩ := hall i (by simp)
    simp only [List.nodup_cons] at hnodup
    simp only [initiateAll]
    have hkeys2 :
        ((updateStream m i Stream.initiate_request).map Prod.fst).Nodup := by
      rw [keys_update]; exact hkeys
    have hall2 : ∀ a ∈ rest,
        ∃ st2, lookupStream (updateStream m i Stream.initiate_request) a =
          some st2 ∧ st2.request_sent = false := by
      intro a ha
      have hai : a ≠ i := fun hh => hnodup.1 (hh ▸ ha)
      rw [lookupStream_update_ne _ _ _ _ hai]
      exact hall a (List.mem_cons_of_mem _ ha)
    rw [ih _ hkeys2 hnodup.2 hall2,
      countP_update_initiate m i st hkeys hl hu]
    simp only [List.length_cons]
    omega

lemma sendLoop_cons (s : H2ClientProtocol) (sid : Nat) (rest : List Nat) :
    H2ClientProtocol.sendLoop s (sid :: rest) =
      if s.active_streams < (s.allowed_max_concurrent_streams : Int) ∧
          s.h2_connected = true then
        H2ClientProtocol.sendLoop
          { s with
            active_streams := s.active_streams + 1
            streams := updateStream s.streams sid Stream.initiate_request
            pending_request_stream_pool := rest }
          rest
      else { s with pending_request_stream_pool := sid :: rest } := rfl

lemma sendLoop_frame (pool : List Nat) :
    ∀ s : H2ClientProtocol,
      (H2ClientProtocol.sendLoop s pool).conn = s.conn ∧
      (H2ClientProtocol.sendLoop s pool).next_stream_id = s.next_stream_id ∧
      (H2ClientProtocol.sendLoop s pool).settings_acknowledged =
        s.settings_acknowledged ∧
      (H2ClientProtocol.sendLoop s pool).transport_connected =
        s.transport_connected ∧
      (H2ClientProtocol.sendLoop s pool).conn_lost_errors = s.conn_lost_errors ∧
      (H2ClientProtocol.sendLoop s pool).has_conn_lost_deferred =
        s.has_conn_lost_deferred ∧
      (H2ClientProtocol.sendLoop s pool).conn_lost_deferred_fires =
        s.conn_lost_deferred_fires ∧
      (H2ClientProtocol.sendLoop s pool).transport_written =
        s.transport_written ∧
      (H2ClientProtocol.sendLoop s pool).lose_connection_called =
        s.lose_connection_called ∧
      (H2ClientProtocol.sendLoop s pool).timeout_active = s.timeout_active ∧
      (H2ClientProtocol.sendLoop s pool).certificate_set = s.certificate_set ∧
      (H2ClientProtocol.sendLoop s pool).closed_stream_log =
        s.closed_stream_log := by
  induction pool with
  | nil =>
    intro s
    exact ⟨rfl, rfl, rfl, rfl, rfl, rfl, rfl, rfl, rfl, rfl, rfl, rfl⟩
  | cons sid rest ih =>
    intro s
    rw [sendLoop_cons]
    split
    · exact ih _
    · exact ⟨rfl, rfl, rfl, rfl, rfl, rfl, rfl, rfl, rfl, rfl, rfl, rfl⟩

lemma sendLoop_run (pool : List Nat) :
    ∀ s : H2ClientProtocol, ∃ k : Nat,
      k ≤ pool.length ∧
      (H2ClientProtocol.sendLoop s pool).active_streams =
        s.active_streams + k ∧
      (H2ClientProtocol.sendLoop s pool).streams =
        initiateAll s.streams (pool.take k) ∧
      (H2ClientProtocol.sendLoop s pool).pending_request_stream_pool =
        pool.drop k ∧
      (∀ j : Nat, j < k →
        s.active_streams + j < (s.allowed_max_concurrent_streams : Int) ∧
          s.h2_connected = true) ∧
      (k = pool.length ∨
        ¬(s.active_streams + k < (s.allowed_max_concurrent_streams : Int) ∧
            s.h2_connected = true)) := by
  induction pool with
  | nil =>
    intro s
    refine ⟨0, Nat.le_refl 0, by simp [H2ClientProtocol.sendLoop],
      by simp [H2ClientProtocol.sendLoop, initiateAll],
      by simp [H2ClientProtocol.sendLoop], ?_, Or.inl rfl⟩
    intro j hj
    exact absurd hj (Nat.not_lt_zero j)
  | cons sid rest ih =>
    intro s
    by_cases hc : s.active_streams < (s.allowed_max_concurrent_streams : Int) ∧
        s.h2_connected = true
    · obtain ⟨k, hk, ha, hs2, hp, hg, he⟩ := ih
        { s with
          active_streams := s.active_streams + 1
          streams := updateStream s.streams sid Stream.initiate_request
          pending_request_stream_pool := rest }
      refine ⟨k + 1, ?_, ?_, ?_, ?_, ?_, ?_⟩
      · simpa using Nat.succ_le_succ hk
      · rw [sendLoop_cons, if_pos hc, ha]
        push_cast
        show s.active_streams + 1 + (k : Int) = s.active_streams + ((k : Int) + 1)
        ring
      · rw [sendLoop_cons, if_pos hc, hs2, List.take_succ_cons]
        rfl
      · rw [sendLoop_cons, if_pos hc, hp]
        rfl
      · intro j hj
        cases j with
        | zero => simpa using hc
        | succ jj =>
          have hgj := hg jj (by omega)
          refine ⟨?_, hgj.2⟩
          have h1 : s.active_streams + 1 + (jj : Int) <
              (s.allowed_max_concurrent_streams : Int) := hgj.1
          push_cast
          omega
      · rcases he with he | he
        · exact Or.inl (by simp [he])
        · refine Or.inr ?_
          intro hcon
          apply he
          refine ⟨?_, hcon.2⟩
          have h1 := hcon.1
          push_cast at h1
          show s.active_streams + 1 + (k : Int) <
            (s.allowed_max_concurrent_streams : Int)
          omega
    · refine ⟨0, Nat.zero_le _, ?_, ?_, ?_, ?_, Or.inr ?_⟩
      · rw [sendLoop_cons, if_neg hc]
        simp
      · rw [sendLoop_cons, if_neg hc]
        rfl
      · rw [sendLoop_cons, if_neg hc]
        rfl
      · intro j hj
        exact absurd hj (Nat.not_lt_zero j)
      · simpa using hc

lemma send_pending_preserves (s : H2ClientProtocol) (hwf : SessionWF s)
    (hinv : SessionInv s) :
    SessionInv s.send_pending_requests ∧ SessionWF s.send_pending_requests := by
  obtain ⟨k, hk, ha, hs2, hp, hg, _⟩ :=
    sendLoop_run s.pending_request_stream_pool s
  obtain ⟨hconn, hnext, _, _, _, _, _, _, _, _, _, _⟩ :=
    sendLoop_frame s.pending_request_stream_pool s
  have h1 : s.active_streams = (admittedCountOf s.streams : Int) := hinv.1
  have htake_prop : ∀ i ∈ s.pending_request_stream_pool.take k,
      ∃ st, lookupStream s.streams i = some st ∧ st.request_sent = false := by
    intro i hi
    have him : i ∈ s.pending_request_stream_pool := List.take_subset k _ hi
    obtain ⟨st, hl⟩ := Option.isSome_iff_exists.mp (hwf.pool_mem i him)
    exact ⟨st, hl, hwf.pool_unsent i him st hl⟩
  have htake_nodup : (s.pending_request_stream_pool.take k).Nodup :=
    List.Nodup.sublist (List.take_sublist k _) hwf.pool_nodup
  have hcount :
      admittedCountOf
          (initiateAll s.streams (s.pending_request_stream_pool.take k)) =
        admittedCountOf s.streams +
          (s.pending_request_stream_pool.take k).length :=
    countP_initiateAll _ s.streams hwf.keys_nodup htake_nodup htake_prop
  have hlen : (s.pending_request_stream_pool.take k).length = k := by
    rw [List.length_take]
    omega
  have hdisj : ∀ i ∈ s.pending_request_stream_pool.drop k,
      i ∉ s.pending_request_stream_pool.take k := by
    intro i hi hmem
    have hnd := hwf.pool_nodup
    rw [(List.take_append_drop k s.pending_request_stream_pool).symm] at hnd
    exact (List.nodup_append.mp hnd).2.2 hmem hi
  simp only [H2ClientProtocol.send_pending_requests]
  constructor
  · refine ⟨?_, ?_, ?_⟩
    · show (H2ClientProtocol.sendLoop s
          s.pending_request_stream_pool).active_streams =
        (admittedCountOf (H2ClientProtocol.sendLoop s
          s.pending_request_stream_pool).streams : Int)
      rw [ha, hs2, hcount, hlen]
      push_cast
      omega
    · rw [ha]
      omega
    · show (H2ClientProtocol.sendLoop s
          s.pending_request_stream_pool).active_streams ≤
        ((H2ClientProtocol.sendLoop s
          s.pending_request_stream_pool).allowed_max_concurrent_streams : Int)
      have hallow : (H2ClientProtocol.sendLoop s
          s.pending_request_stream_pool).allowed_max_concurrent_streams =
          s.allowed_max_concurrent_streams := by
        simp only [H2ClientProtocol.allowed_max_concurrent_streams, hconn]
      rw [ha, hallow]
      rcases Nat.eq_zero_or_pos k with hk0 | hkpos
      · subst hk0
        have h2 := hinv.2.2
        push_cast
        omega
      · have hgk := hg (k - 1) (by omega)
        have h2 := hgk.1
        push_cast at h2 ⊢
        omega
  · refine ⟨?_, ?_, ?_, ?_, ?_⟩
    · show ((H2ClientProtocol.sendLoop s
          s.pending_request_stream_pool).streams.map Prod.fst).Nodup
      rw [hs2, keys_initiateAll]
      exact hwf.keys_nodup
    · show ∀ a ∈ (H2ClientProtocol.sendLoop s
          s.pending_request_stream_pool).streams.map Prod.fst,
        a < (H2ClientProtocol.sendLoop s
          s.pending_request_stream_pool).next_stream_id
      rw [hs2, keys_initiateAll, hnext]
      exact hwf.keys_lt
    · intro i hi
      rw [hp] at hi
      have him : i ∈ s.pending_request_stream_pool := List.drop_subset k _ hi
      show (lookupStream (H2ClientProtocol.sendLoop s
          s.pending_request_stream_pool).streams i).isSome = true
      rw [hs2, lookup_initiateAll_not_mem _ _ _ (hdisj i hi)]
      exact hwf.pool_mem i him
    · intro i hi st hl
      rw [hp] at hi
      have him : i ∈ s.pending_request_stream_pool := List.drop_subset k _ hi
      rw [hs2, lookup_initiateAll_not_mem _ _ _ (hdisj i hi)] at hl
      exact hwf.pool_unsent i him st hl
    · show (H2ClientProtocol.sendLoop s
          s.pending_request_stream_pool).pending_request_stream_pool.Nodup
      rw [hp]
      exact List.Nodup.sublist (List.drop_sublist k _) hwf.pool_nodup

lemma connectionLost_eq (s : H2ClientProtocol) (reason : ConnError) :
    s.connectionLost reason =
      { s with
        timeout_active := false
        transport_connected := false
        conn_lost_errors := connLostErrorsAfter s reason
        conn_lost_deferred_fires :=
          s.conn_lost_deferred_fires +
            (if s.has_conn_lost_deferred then 1 else 0)
        closed_stream_log :=
          s.closed_stream_log ++
            s.streams.map
              (fun p => H2ClientProtocol.closeForConnLost
                (connLostErrorsAfter s reason) p.2)
        active_streams := s.active_streams - s.streams.length
        streams := []
        pending_request_stream_pool := []
        conn := s.conn.close_connection ErrorCodes.NO_ERROR } := by
  cases hd : s.has_conn_lost_deferred <;>
    simp [H2ClientProtocol.connectionLost, connLostErrorsAfter, hd]

lemma handleEvent_conn_written (s : H2ClientProtocol) (e : H2Event) :
    (s.handleEvent e).1.conn = s.conn ∧
    (s.handleEvent e).1.transport_written = s.transport_written := by
  cases e with
  | ConnectionTerminated => exact ⟨rfl, rfl⟩
  | DataReceived sid =>
    simp only [H2ClientProtocol.handleEvent]
    cases hl : lookupStream s.streams sid with
    | none => exact ⟨rfl, rfl⟩
    | some st => exact ⟨rfl, rfl⟩
  | ResponseReceived sid =>
    simp only [H2ClientProtocol.handleEvent]
    cases hl : lookupStream s.streams sid with
    | none => exact ⟨rfl, rfl⟩
    | some st => exact ⟨rfl, rfl⟩
  | SettingsAcknowledged =>
    obtain ⟨hc2, _, _, _, _, _, _, hw2, _, _, _, _⟩ :=
      sendLoop_frame s.pending_request_stream_pool
        { s with settings_acknowledged := true }
    exact ⟨hc2, hw2⟩
  | StreamEnded sid =>
    simp only [H2ClientProtocol.handleEvent]
    cases hl : lookupStream s.streams sid with
    | none => simp [H2ClientProtocol.pop_stream, hl]
    | some st =>
      simp only [H2ClientProtocol.pop_stream, hl]
      obtain ⟨hc2, _, _, _, _, _, _, hw2, _, _, _, _⟩ :=
        sendLoop_frame s.pending_request_stream_pool
          { s with
            streams := removeStream s.streams sid
            active_streams := s.active_streams - 1 }
      exact ⟨hc2, hw2⟩
  | StreamReset sid =>
    simp only [H2ClientProtocol.handleEvent]
    cases hl : lookupStream s.streams sid with
    | none => simp [H2ClientProtocol.pop_stream, hl]
    | some st =>
      simp only [H2ClientProtocol.pop_stream, hl]
      obtain ⟨hc2, _, _, _, _, _, _, hw2, _, _, _, _⟩ :=
        sendLoop_frame s.pending_request_stream_pool
          { s with
            streams := removeStream s.streams sid
            active_streams := s.active_streams - 1 }
      exact ⟨hc2, hw2⟩
  | WindowUpdated sid =>
    simp only [H2ClientProtocol.handleEvent]
    by_cases h0 : sid = 0
    · subst h0
      exact ⟨rfl, rfl⟩
    · simp only [if_neg h0]
      cases hl : lookupStream s.streams sid with
      | none => exact ⟨rfl, rfl⟩
      | some st => exact ⟨rfl, rfl⟩
  | UnknownFrameReceived => exact ⟨rfl, rfl⟩

lemma handleEvents_conn_written (es : List H2Event) :
    ∀ s : H2ClientProtocol,
      (s.handleEvents es).1.conn = s.conn ∧
      (s.handleEvents es).1.transport_written = s.transport_written := by
  induction es with
  | nil => intro s; exact ⟨rfl, rfl⟩
  | cons e rest ih =>
    intro s
    have hfe := handleEvent_conn_written s e
    simp only [H2ClientProtocol.handleEvents]
    rcases hr : s.handleEvent e with ⟨s1, err⟩
    rw [hr] at hfe
    cases err with
    | none =>
      dsimp only
      dsimp only at hfe
      refine ⟨?_, ?_⟩
      · rw [(ih s1).1, hfe.1]
      · rw [(ih s1).2, hfe.2]
    | some perr =>
      dsimp only
      dsimp only at hfe
      exact hfe

lemma countP_eq_of_forall {α : Type} (l : List α) (p q : α → Bool)
    (h : ∀ a ∈ l, p a = q a) : l.countP p = l.countP q := by
  induction l with
  | nil => rfl
  | cons a rest ih =>
    simp only [List.countP_cons, h a (List.mem_cons_self a rest)]
    rw [ih (fun b hb => h b (List.mem_cons_of_mem a hb))]

lemma closeForConnLost_reason_cl (errs : List ConnError) (st : Stream)
    (hc : st.closed = false) :
    closeReasonIs StreamCloseReason.CONNECTION_LOST
        (H2ClientProtocol.closeForConnLost errs st) = st.request_sent := by
  cases hs : st.request_sent <;>
    simp [H2ClientProtocol.closeForConnLost, Stream.close, closeReasonIs, hc, hs]

lemma closeForConnLost_reason_inactive (errs : List ConnError) (st : Stream)
    (hc : st.closed = false) :
    closeReasonIs StreamCloseReason.INACTIVE
        (H2ClientProtocol.closeForConnLost errs st) = !st.request_sent := by
  cases hs : st.request_sent <;>
    simp [H2ClientProtocol.closeForConnLost, Stream.close, closeReasonIs, hc, hs]

lemma closeForConnLost_fulfilled (errs : List ConnError) (st : Stream)
    (hc : st.closed = false) (h0 : st.completion_fulfilled = 0) :
    (H2ClientProtocol.closeForConnLost errs st).completion_fulfilled = 1 := by
  cases hs : st.request_sent <;>
    simp [H2ClientProtocol.closeForConnLost, Stream.close, hc, h0, hs]

lemma closeForConnLost_errors (errs : List ConnError) (st : Stream)
    (hc : st.closed = false) (hs : st.request_sent = true) :
    (H2ClientProtocol.closeForConnLost errs st).close_errors = errs := by
  simp [H2ClientProtocol.closeForConnLost, Stream.close, hc, hs]

lemma closeForConnLost_reason_unsent (errs : List ConnError) (st : Stream)
    (hc : st.closed = false) (hs : st.request_sent = false) :
    (H2ClientProtocol.closeForConnLost errs st).close_reason =
      some StreamCloseReason.INACTIVE := by
  simp [H2ClientProtocol.closeForConnLost, Stream.close, hc, hs]

/-- C1, counterexample: submitting one request while the peer settings are
not yet acknowledged registers a stream without admitting it; the
subsequent connectionLost subtracts the full registry size from the active
counter, driving it to -1, which is negative and differs from the admitted
count (0).  This falsifies the claim that the activeCount invariant holds
after every operation including connection loss. -/
theorem C1_counterexample :
    c1AfterLost.active_streams = -1 ∧
    c1AfterLost.active_streams < 0 ∧
    c1AfterLost.active_streams ≠ (c1AfterLost.admittedCount : Int) := by
  refine ⟨by decide, by decide, by decide⟩

/-- C1, amended: the activeCount invariant (activeCount equals the number
of admitted registered streams and 0 ≤ activeCount ≤ allowedConcurrency)
is preserved by submit, the admission loop, stream end, stream reset (of
an admitted registered stream) and settings acknowledgement; connection
loss instead subtracts the number of all registered streams (admitted or
not), clears the registry and the queue, and leaves the counter negative
exactly when never-admitted streams were still registered. -/
theorem C1_active_count_invariant (s : H2ClientProtocol) (op : SessionOp)
    (hwf : SessionWF s) (hinv : SessionInv s) (hok : SessionOpOK s op) :
    match op with
    | SessionOp.connLostEv _ =>
      (applySessionOp s op).active_streams =
          s.active_streams - s.streams.length ∧
      (applySessionOp s op).streams = [] ∧
      (applySessionOp s op).pending_request_stream_pool = [] ∧
      ((applySessionOp s op).active_streams < 0 ↔
        s.admittedCount < s.streams.length)
    | _ =>
      SessionInv (applySessionOp s op) ∧ SessionWF (applySessionOp s op) := by
  have h1 : s.active_streams = (admittedCountOf s.streams : Int) := hinv.1
  cases op with
  | submit p =>
    simp only [applySessionOp]
    have hnotmem : s.next_stream_id ∉ s.streams.map Prod.fst := by
      intro hmem
      exact absurd (hwf.keys_lt _ hmem) (lt_irrefl _)
    have hlooknone : lookupStream s.streams s.next_stream_id = none := by
      cases hsome : lookupStream s.streams s.next_stream_id with
      | none => rfl
      | some st =>
        refine absurd ((lookupStream_isSome_iff _ _).mp ?_) hnotmem
        rw [hsome]
        rfl
    have hpoolnot : s.next_stream_id ∉ s.pending_request_stream_pool := by
      intro hmem
      exact absurd ((lookupStream_isSome_iff _ _).mp (hwf.pool_mem _ hmem))
        hnotmem
    have hlook2 : lookupStream
        (s.streams ++
          [(s.next_stream_id,
            { stream_id := s.next_stream_id, request_payload := p })])
        s.next_stream_id =
        some { stream_id := s.next_stream_id, request_payload := p } := by
      rw [lookupStream_append_right _ _ _ hlooknone]
      simp [lookupStream]
    have heq : s.requestAccepted p =
        H2ClientProtocol.send_pending_requests
          { s with
            next_stream_id := s.next_stream_id + 2
            streams := s.streams ++
              [(s.next_stream_id,
                { stream_id := s.next_stream_id, request_payload := p })]
            pending_request_stream_pool :=
              s.pending_request_stream_pool ++ [s.next_stream_id] } := rfl
    have hwfmid : SessionWF
        { s with
          next_stream_id := s.next_stream_id + 2
          streams := s.streams ++
            [(s.next_stream_id,
              { stream_id := s.next_stream_id, request_payload := p })]
          pending_request_stream_pool :=
            s.pending_request_stream_pool ++ [s.next_stream_id] } := by
      refine ⟨?_, ?_, ?_, ?_, ?_⟩
      · show ((s.streams ++
          [((s.next_stream_id : Nat),
            ({ stream_id := s.next_stream_id, request_payload := p } :
              Stream))]).map Prod.fst).Nodup
        rw [List.map_append]
        exact nodup_append_singleton _ _ hwf.keys_nodup hnotmem
      · intro a ha
        show a < s.next_stream_id + 2
        rw [List.map_append] at ha
        rcases List.mem_append.mp ha with ha | ha
        · have := hwf.keys_lt a ha
          omega
        · simp only [List.map_cons, List.map_nil, List.mem_singleton] at ha
          omega
      · intro i hi
        rcases List.mem_append.mp hi with hi | hi
        · show (lookupStream (s.streams ++
            [((s.next_stream_id : Nat),
              ({ stream_id := s.next_stream_id, request_payload := p } :
                Stream))]) i).isSome = true
          rw [lookupStream_append_left _ _ _ (hwf.pool_mem i hi)]
          exact hwf.pool_mem i hi
        · simp only [List.mem_singleton] at hi
          subst hi
          show (lookupStream (s.streams ++
            [((s.next_stream_id : Nat),
              ({ stream_id := s.next_stream_id, request_payload := p } :
                Stream))]) s.next_stream_id).isSome = true
          rw [hlook2]
          rfl
      · intro i hi st hl
        rcases List.mem_append.mp hi with hi | hi
        · rw [lookupStream_append_left _ _ _ (hwf.pool_mem i hi)] at hl
          exact hwf.pool_unsent i hi st hl
        · simp only [List.mem_singleton] at hi
          subst hi
          rw [hlook2] at hl
          injection hl with hl2
          rw [← hl2]
      · exact nodup_append_singleton _ _ hwf.pool_nodup hpoolnot
    have hinvmid : SessionInv
        { s with
          next_stream_id := s.next_stream_id + 2
          streams := s.streams ++
            [(s.next_stream_id,
              { stream_id := s.next_stream_id, request_payload := p })]
          pending_request_stream_pool :=
            s.pending_request_stream_pool ++ [s.next_stream_id] } := by
      have hadd : admittedCountOf (s.streams ++
          [(s.next_stream_id,
            { stream_id := s.next_stream_id, request_payload := p })]) =
          admittedCountOf s.streams := by
        simp [admittedCountOf, List.countP_append]
      refine ⟨?_, hinv.2.1, hinv.2.2⟩
      show s.active_streams =
        (admittedCountOf (s.streams ++
          [((s.next_stream_id : Nat),
            ({ stream_id := s.next_stream_id, request_payload := p } :
              Stream))]) : Int)
      rw [hadd]
      exact h1
    rw [heq]
    exact send_pending_preserves _ hwfmid hinvmid
  | admission =>
    simp only [applySessionOp]
    exact send_pending_preserves s hwf hinv
  | streamEndedEv sid =>
    obtain ⟨st, hl, hsent⟩ := hok
    simp only [applySessionOp]
    have hpop : s.pop_stream sid = some (st,
        H2ClientProtocol.send_pending_requests
          { s with
            streams := removeStream s.streams sid
            active_streams := s.active_streams - 1 }) := by
      simp [H2ClientProtocol.pop_stream, hl]
    simp only [H2ClientProtocol.handleEvent, hpop]
    have hrm := countP_remove s.streams sid st hwf.keys_nodup hl
    rw [hsent] at hrm
    simp only [if_pos rfl] at hrm
    have hine : ∀ i ∈ s.pending_request_stream_pool, i ≠ sid := by
      intro i hi hh
      subst hh
      have hfalse := hwf.pool_unsent i hi st hl
      rw [hsent] at hfalse
      simp at hfalse
    have hwfmid : SessionWF
        { s with
          streams := removeStream s.streams sid
          active_streams := s.active_streams - 1 } := by
      refine ⟨?_, ?_, ?_, ?_, ?_⟩
      · exact keys_remove_nodup _ _ hwf.keys_nodup
      · intro a ha
        exact hwf.keys_lt a (keys_remove_sub _ _ a ha)
      · intro i hi
        show (lookupStream (removeStream s.streams sid) i).isSome = true
        rw [lookupStream_remove_ne _ _ _ (hine i hi)]
        exact hwf.pool_mem i hi
      · intro i hi st2 hl2
        rw [lookupStream_remove_ne _ _ _ (hine i hi)] at hl2
        exact hwf.pool_unsent i hi st2 hl2
      · exact hwf.pool_nodup
    have hinvmid : SessionInv
        { s with
          streams := removeStream s.streams sid
          active_streams := s.active_streams - 1 } := by
      refine ⟨?_, ?_, ?_⟩
      · show s.active_streams - 1 =
          (admittedCountOf (removeStream s.streams sid) : Int)
        rw [h1, hrm]
        push_cast
        ring
      · show (0 : Int) ≤ s.active_streams - 1
        rw [h1, hrm]
        push_cast
        omega
      · show s.active_streams - 1 ≤
          (s.allowed_max_concurrent_streams : Int)
        have h2 := hinv.2.2
        omega
    have hmain := send_pending_preserves _ hwfmid hinvmid
    exact ⟨⟨hmain.1.1, hmain.1.2.1, hmain.1.2.2⟩,
      ⟨hmain.2.keys_nodup, hmain.2.keys_lt, hmain.2.pool_mem,
        hmain.2.pool_unsent, hmain.2.pool_nodup⟩⟩
  | streamResetEv sid =>
    obtain ⟨st, hl, hsent⟩ := hok
    simp only [applySessionOp]
    have hpop : s.pop_stream sid = some (st,
        H2ClientProtocol.send_pending_requests
          { s with
            streams := removeStream s.streams sid
            active_streams := s.active_streams - 1 }) := by
      simp [H2ClientProtocol.pop_stream, hl]
    simp only [H2ClientProtocol.handleEvent, hpop]
    have hrm := countP_remove s.streams sid st hwf.keys_nodup hl
    rw [hsent] at hrm
    simp only [if_pos rfl] at hrm
    have hine : ∀ i ∈ s.pending_request_stream_pool, i ≠ sid := by
      intro i hi hh
      subst hh
      have hfalse := hwf.pool_unsent i hi st hl
      rw [hsent] at hfalse
      simp at hfalse
    have hwfmid : SessionWF
        { s with
          streams := removeStream s.streams sid
          active_streams := s.active_streams - 1 } := by
      refine ⟨?_, ?_, ?_, ?_, ?_⟩
      · exact keys_remove_nodup _ _ hwf.keys_nodup
      · intro a ha
        exact hwf.keys_lt a (keys_remove_sub _ _ a ha)
      · intro i hi
        show (lookupStream (removeStream s.streams sid) i).isSome = true
        rw [lookupStream_remove_ne _ _ _ (hine i hi)]
        exact hwf.pool_mem i hi
      · intro i hi st2 hl2
        rw [lookupStream_remove_ne _ _ _ (hine i hi)] at hl2
        exact hwf.pool_unsent i hi st2 hl2
      · exact hwf.pool_nodup
    have hinvmid : SessionInv
        { s with
          streams := removeStream s.streams sid
          active_streams := s.active_streams - 1 } := by
      refine ⟨?_, ?_, ?_⟩
      · show s.active_streams - 1 =
          (admittedCountOf (removeStream s.streams sid) : Int)
        rw [h1, hrm]
        push_cast
        ring
      · show (0 : Int) ≤ s.active_streams - 1
        rw [h1, hrm]
        push_cast
        omega
      · show s.active_streams - 1 ≤
          (s.allowed_max_concurrent_streams : Int)
        have h2 := hinv.2.2
        omega
    have hmain := send_pending_preserves _ hwfmid hinvmid
    exact ⟨⟨hmain.1.1, hmain.1.2.1, hmain.1.2.2⟩,
      ⟨hmain.2.keys_nodup, hmain.2.keys_lt, hmain.2.pool_mem,
        hmain.2.pool_unsent, hmain.2.pool_nodup⟩⟩
  | settingsAckEv =>
    simp only [applySessionOp, H2ClientProtocol.handleEvent]
    have hmain := send_pending_preserves
      { s with settings_acknowledged := true }
      ⟨hwf.keys_nodup, hwf.keys_lt, hwf.pool_mem, hwf.pool_unsent,
        hwf.pool_nodup⟩
      ⟨hinv.1, hinv.2.1, hinv.2.2⟩
    exact ⟨⟨hmain.1.1, hmain.1.2.1, hmain.1.2.2⟩,
      ⟨hmain.2.keys_nodup, hmain.2.keys_lt, hmain.2.pool_mem,
        hmain.2.pool_unsent, hmain.2.pool_nodup⟩⟩
  | connLostEv r =>
    simp only [applySessionOp]
    rw [connectionLost_eq]
    refine ⟨rfl, rfl, rfl, ?_⟩
    show s.active_streams - (s.streams.length : Int) < 0 ↔
      admittedCountOf s.streams < s.streams.length
    omega


/-- C1, witness: the amended invariant theorem applies to a concrete
connected session submitting its first request. -/
theorem C1_witness :
    SessionInv (applySessionOp c1Start (SessionOp.submit 0)) ∧
    SessionWF (applySessionOp c1Start (SessionOp.submit 0)) :=
  C1_active_count_invariant c1Start (SessionOp.submit 0)
    ⟨by decide, by decide, by decide, by decide, by decide⟩
    ⟨by decide, by decide, by decide⟩
    trivial

/-- C2, counterexample: dispatching a DataReceived event naming stream
id 5 on a session whose registry is empty raises KeyError (the dict
lookup fails) instead of being logged or ignored, refuting the claim that
such events cannot crash the session. -/
theorem C2_counterexample :
    (c2State.handleEvent (H2Event.DataReceived 5)).2 =
      some (PyError.keyError 5) := by decide

/-- C2, amended: only UnknownFrameReceived is logged and ignored; for an
event naming an unregistered stream id (DataReceived, ResponseReceived,
StreamEnded, StreamReset, or WindowUpdated with a non-zero id), the
dispatch raises KeyError and propagates it — the session state is left
unmodified by the failed dispatch, but the event is not ignored. -/
theorem C2_unknown_stream_dispatch (s : H2ClientProtocol) (sid : Nat)
    (habs : lookupStream s.streams sid = none) (h0 : sid ≠ 0) :
    s.handleEvent (H2Event.DataReceived sid) =
      (s, some (PyError.keyError sid)) ∧
    s.handleEvent (H2Event.ResponseReceived sid) =
      (s, some (PyError.keyError sid)) ∧
    s.handleEvent (H2Event.StreamEnded sid) =
      (s, some (PyError.keyError sid)) ∧
    s.handleEvent (H2Event.StreamReset sid) =
      (s, some (PyError.keyError sid)) ∧
    s.handleEvent (H2Event.WindowUpdated sid) =
      (s, some (PyError.keyError sid)) ∧
    s.handleEvent H2Event.UnknownFrameReceived = (s, none) := by
  refine ⟨?_, ?_, ?_, ?_, ?_, rfl⟩ <;>
    simp [H2ClientProtocol.handleEvent, H2ClientProtocol.pop_stream, habs, h0]

/-- C2, witness: the amended dispatch theorem applies to the concrete
session with an empty registry and event stream id 5. -/
theorem C2_witness :
    c2State.handleEvent (H2Event.DataReceived 5) =
      (c2State, some (PyError.keyError 5)) ∧
    c2State.handleEvent (H2Event.ResponseReceived 5) =
      (c2State, some (PyError.keyError 5)) ∧
    c2State.handleEvent (H2Event.StreamEnded 5) =
      (c2State, some (PyError.keyError 5)) ∧
    c2State.handleEvent (H2Event.StreamReset 5) =
      (c2State, some (PyError.keyError 5)) ∧
    c2State.handleEvent (H2Event.WindowUpdated 5) =
      (c2State, some (PyError.keyError 5)) ∧
    c2State.handleEvent H2Event.UnknownFrameReceived = (c2State, none) :=
  C2_unknown_stream_dispatch c2State 5 rfl (by decide)

/-- C3: when the connection is torn down, the streams closed during the
teardown are exactly the registered ones; those with requestSent true are
closed with reason CONNECTION_LOST carrying the final accumulated cause
list, the others with reason INACTIVE, each completion is fulfilled
exactly once, and the registry and pending queue are cleared. -/
theorem C3_connection_teardown (s : H2ClientProtocol)
    (reason : ConnError)
    (hfresh : ∀ p ∈ s.streams,
      p.2.closed = false ∧ p.2.completion_fulfilled = 0) :
    ((s.connectionLost reason).closed_stream_log.drop
        s.closed_stream_log.length).countP
        (closeReasonIs StreamCloseReason.CONNECTION_LOST) =
      s.streams.countP (fun p => p.2.request_sent) ∧
    ((s.connectionLost reason).closed_stream_log.drop
        s.closed_stream_log.length).countP
        (closeReasonIs StreamCloseReason.INACTIVE) =
      s.streams.countP (fun p => !p.2.request_sent) ∧
    ((s.connectionLost reason).closed_stream_log.drop
        s.closed_stream_log.length).length = s.streams.length ∧
    (∀ st ∈ (s.connectionLost reason).closed_stream_log.drop
        s.closed_stream_log.length, st.completion_fulfilled = 1) ∧
    (∀ st ∈ (s.connectionLost reason).closed_stream_log.drop
        s.closed_stream_log.length,
      st.close_reason = some StreamCloseReason.CONNECTION_LOST →
        st.close_errors = (s.connectionLost reason).conn_lost_errors) ∧
    (s.connectionLost reason).streams = [] ∧
    (s.connectionLost reason).pending_request_stream_pool = [] := by
  rw [connectionLost_eq]
  dsimp only
  rw [List.drop_left]
  refine ⟨?_, ?_, ?_, ?_, ?_, rfl, rfl⟩
  · rw [List.countP_map]
    refine countP_eq_of_forall _ _ _ ?_
    intro a ha
    exact closeForConnLost_reason_cl _ _ (hfresh a ha).1
  · rw [List.countP_map]
    refine countP_eq_of_forall _ _ _ ?_
    intro a ha
    exact closeForConnLost_reason_inactive _ _ (hfresh a ha).1
  · exact List.length_map _ _
  · intro st hst
    obtain ⟨q, hq, hfq⟩ := List.mem_map.mp hst
    rw [← hfq]
    exact closeForConnLost_fulfilled _ _ (hfresh q hq).1 (hfresh q hq).2
  · intro st hst hreason
    obtain ⟨q, hq, hfq⟩ := List.mem_map.mp hst
    cases hs : q.2.request_sent with
    | true =>
      rw [← hfq]
      exact closeForConnLost_errors _ _ (hfresh q hq).1 hs
    | false =>
      rw [← hfq] at hreason
      rw [closeForConnLost_reason_unsent _ _ (hfresh q hq).1 hs] at hreason
      simp at hreason

/-- C3, witness: teardown of a concrete session with one admitted stream
(id 1) and one never-started stream (id 3). -/
theorem C3_witness :
    ((c3State.connectionLost ConnError.connectionDone).closed_stream_log.drop
        c3State.closed_stream_log.length).countP
        (closeReasonIs StreamCloseReason.CONNECTION_LOST) =
      c3State.streams.countP (fun p => p.2.request_sent) ∧
    ((c3State.connectionLost ConnError.connectionDone).closed_stream_log.drop
        c3State.closed_stream_log.length).countP
        (closeReasonIs StreamCloseReason.INACTIVE) =
      c3State.streams.countP (fun p => !p.2.request_sent) ∧
    ((c3State.connectionLost ConnError.connectionDone).closed_stream_log.drop
        c3State.closed_stream_log.length).length =
      c3State.streams.length ∧
    (∀ st ∈ (c3State.connectionLost ConnError.connectionDone).closed_stream_log.drop
        c3State.closed_stream_log.length, st.completion_fulfilled = 1) ∧
    (∀ st ∈ (c3State.connectionLost ConnError.connectionDone).closed_stream_log.drop
        c3State.closed_stream_log.length,
      st.close_reason = some StreamCloseReason.CONNECTION_LOST →
        st.close_errors = (c3State.connectionLost ConnError.connectionDone).conn_lost_errors) ∧
    (c3State.connectionLost ConnError.connectionDone).streams = [] ∧
    (c3State.connectionLost ConnError.connectionDone).pending_request_stream_pool = [] :=
  C3_connection_teardown c3State ConnError.connectionDone (by decide)

/-- C4: the admission loop drains the pending queue in strict FIFO order
(a prefix is admitted, the suffix stays queued in order), increments the
active counter once per admitted stream and marks each admitted stream's
request as sent; it stops only when the queue is empty, capacity is
exhausted, or the connection is not ready, and it preserves the invariant
that at most allowedConcurrency streams are simultaneously admitted. -/
theorem C4_admission_algorithm (s : H2ClientProtocol) (hwf : SessionWF s)
    (hinv : SessionInv s) :
    ∃ k : Nat,
      s.send_pending_requests.pending_request_stream_pool =
        s.pending_request_stream_pool.drop k ∧
      s.send_pending_requests.active_streams = s.active_streams + k ∧
      (∀ i ∈ s.pending_request_stream_pool.take k,
        ∃ st, lookupStream s.send_pending_requests.streams i = some st ∧
          st.request_sent = true) ∧
      SessionInv s.send_pending_requests ∧
      (s.send_pending_requests.pending_request_stream_pool = [] ∨
        (s.allowed_max_concurrent_streams : Int) ≤
          s.send_pending_requests.active_streams ∨
        s.h2_connected = false) := by
  obtain ⟨k, hk, ha, hs2, hp, hg, hend⟩ :=
    sendLoop_run s.pending_request_stream_pool s
  refine ⟨k, hp, ha, ?_, (send_pending_preserves s hwf hinv).1, ?_⟩
  · intro i hi
    have hsome := hwf.pool_mem i (List.take_subset k _ hi)
    have hfound := lookup_initiateAll_sent
      (s.pending_request_stream_pool.take k) s.streams i hi hsome
    show ∃ st, lookupStream (H2ClientProtocol.sendLoop s
      s.pending_request_stream_pool).streams i = some st ∧
        st.request_sent = true
    rw [hs2]
    exact hfound
  · rcases hend with he | he
    · left
      show (H2ClientProtocol.sendLoop s
        s.pending_request_stream_pool).pending_request_stream_pool = []
      rw [hp, he, List.drop_length]
    · by_cases hcon : s.h2_connected = true
      · right
        left
        have hnl : ¬(s.active_streams + (k : Int) <
            (s.allowed_max_concurrent_streams : Int)) :=
          fun hlt => he ⟨hlt, hcon⟩
        show (s.allowed_max_concurrent_streams : Int) ≤
          (H2ClientProtocol.sendLoop s
            s.pending_request_stream_pool).active_streams
        rw [ha]
        omega
      · right
        right
        cases hb : s.h2_connected with
        | false => rfl
        | true => exact absurd hb hcon

/-- C4, witness: the admission theorem applies to a concrete ready session
with one registered pending stream. -/
theorem C4_witness :
    ∃ k : Nat,
      c4State.send_pending_requests.pending_request_stream_pool =
        c4State.pending_request_stream_pool.drop k ∧
      c4State.send_pending_requests.active_streams =
        c4State.active_streams + k ∧
      (∀ i ∈ c4State.pending_request_stream_pool.take k,
        ∃ st, lookupStream c4State.send_pending_requests.streams i =
          some st ∧ st.request_sent = true) ∧
      SessionInv c4State.send_pending_requests ∧
      (c4State.send_pending_requests.pending_request_stream_pool = [] ∨
        (c4State.allowed_max_concurrent_streams : Int) ≤
          c4State.send_pending_requests.active_streams ∨
        c4State.h2_connected = false) :=
  C4_admission_algorithm c4State
    ⟨by decide, by decide, by decide, by decide, by decide⟩
    ⟨by decide, by decide, by decide⟩

/-- C5, counterexample: after a first connectionLost the registry is
empty, yet a second connectionLost invocation fires the one-shot
connection-lost deferred a second time (its callback runs again, which in
Twisted raises AlreadyCalledError), appends the clean close reason to the
cause list again, and so changes the session state: the handler is not an
idempotent no-op. -/
theorem C5_counterexample :
    c5Twice.conn_lost_deferred_fires = 2 ∧
    c5Twice.conn_lost_errors =
      [ConnError.connectionDone, ConnError.connectionDone] ∧
    c5Twice ≠ c5Once := by
  refine ⟨by decide, by decide, by decide⟩

/-- C5, amended: a second connectionLost call after teardown is a no-op on
the registry, the pending queue, the active counter and the closed-stream
completions, but it is not guarded: it appends the clean close reason to
the accumulated cause list again (the reason.check(connectionDone) guard
never matches, so the append is unconditional) and it invokes the
connection-lost deferred's callback once more whenever a deferred was
supplied (in Twisted that second callback raises AlreadyCalledError), so
the notification is single-fire only because Twisted invokes
connectionLost once per connection. -/
theorem C5_second_connection_lost (s : H2ClientProtocol)
    (h : s.streams = []) :
    (s.connectionLost ConnError.connectionDone).streams = [] ∧
    (s.connectionLost ConnError.connectionDone).pending_request_stream_pool = [] ∧
    (s.connectionLost ConnError.connectionDone).active_streams = s.active_streams ∧
    (s.connectionLost ConnError.connectionDone).closed_stream_log = s.closed_stream_log ∧
    (s.connectionLost ConnError.connectionDone).conn_lost_errors =
      s.conn_lost_errors ++ [ConnError.connectionDone] ∧
    (s.connectionLost ConnError.connectionDone).conn_lost_deferred_fires =
      s.conn_lost_deferred_fires +
        (if s.has_conn_lost_deferred then 1 else 0) := by
  rw [connectionLost_eq]
  dsimp only
  rw [h]
  refine ⟨rfl, rfl, by simp, by simp, ?_, rfl⟩
  simp [connLostErrorsAfter]

/-- C5, witness: the amended theorem applies to the concrete state reached
after a first connectionLost. -/
theorem C5_witness :
    (c5Once.connectionLost ConnError.connectionDone).streams = [] ∧
    (c5Once.connectionLost ConnError.connectionDone).pending_request_stream_pool = [] ∧
    (c5Once.connectionLost ConnError.connectionDone).active_streams = c5Once.active_streams ∧
    (c5Once.connectionLost ConnError.connectionDone).closed_stream_log =
      c5Once.closed_stream_log ∧
    (c5Once.connectionLost ConnError.connectionDone).conn_lost_errors =
      c5Once.conn_lost_errors ++ [ConnError.connectionDone] ∧
    (c5Once.connectionLost ConnError.connectionDone).conn_lost_deferred_fires =
      c5Once.conn_lost_deferred_fires +
        (if c5Once.has_conn_lost_deferred then 1 else 0) :=
  C5_second_connection_lost c5Once (by decide)

/-- C6: the idle-timeout handler chooses the cooperative NO_ERROR code
exactly when no stream is open at the codec and none is active, and the
protocol-error code otherwise; it closes the codec connection with that
code, flushes the GOAWAY to the transport, appends a timeout cause to the
accumulated causes and requests the transport teardown. -/
theorem C6_idle_timeout (s : H2ClientProtocol)
    (hnn : 0 ≤ s.active_streams) :
    (s.chosenTimeoutCode = ErrorCodes.NO_ERROR ↔
      s.conn.open_outbound_streams = 0 ∧ s.conn.open_inbound_streams = 0 ∧
        s.active_streams = 0) ∧
    (s.chosenTimeoutCode = ErrorCodes.PROTOCOL_ERROR ↔
      ¬(s.conn.open_outbound_streams = 0 ∧
        s.conn.open_inbound_streams = 0 ∧ s.active_streams = 0)) ∧
    s.timeoutConnection.conn.close_codes =
      s.conn.close_codes ++ [s.chosenTimeoutCode] ∧
    s.timeoutConnection.conn.outbound = [] ∧
    s.timeoutConnection.transport_written =
      s.transport_written ++ s.conn.outbound ++
        [OutFrame.goaway s.chosenTimeoutCode] ∧
    s.timeoutConnection.conn_lost_errors =
      s.conn_lost_errors ++ [ConnError.timeoutError] ∧
    s.timeoutConnection.lose_connection_called = true := by
  refine ⟨?_, ?_, ?_, ?_, ?_, ?_, ?_⟩
  · by_cases hcond : s.conn.open_outbound_streams > 0 ∨
        s.conn.open_inbound_streams > 0 ∨ s.active_streams > 0
    · simp only [H2ClientProtocol.chosenTimeoutCode, if_pos hcond,
        ErrorCodes.PROTOCOL_ERROR, ErrorCodes.NO_ERROR]
      constructor
      · intro hh
        exact absurd hh (by decide)
      · intro hh
        exfalso
        omega
    · simp only [H2ClientProtocol.chosenTimeoutCode, if_neg hcond,
        ErrorCodes.NO_ERROR]
      push_neg at hcond
      constructor
      · intro _
        refine ⟨by omega, by omega, by omega⟩
      · intro _
        trivial
  · by_cases hcond : s.conn.open_outbound_streams > 0 ∨
        s.conn.open_inbound_streams > 0 ∨ s.active_streams > 0
    · simp only [H2ClientProtocol.chosenTimeoutCode, if_pos hcond,
        ErrorCodes.PROTOCOL_ERROR]
      constructor
      · intro _ hh
        omega
      · intro _
        trivial
    · simp only [H2ClientProtocol.chosenTimeoutCode, if_neg hcond,
        ErrorCodes.PROTOCOL_ERROR, ErrorCodes.NO_ERROR]
      push_neg at hcond
      constructor
      · intro hh
        exact absurd hh (by decide)
      · intro hh
        exfalso
        exact hh ⟨by omega, by omega, by omega⟩
  · simp [H2ClientProtocol.timeoutConnection,
      H2ClientProtocol.write_to_transport,
      H2ClientProtocol.lose_connection_with_error,
      H2Connection.close_connection, H2Connection.data_to_send]
  · simp [H2ClientProtocol.timeoutConnection,
      H2ClientProtocol.write_to_transport,
      H2ClientProtocol.lose_connection_with_error,
      H2Connection.close_connection, H2Connection.data_to_send]
  · simp [H2ClientProtocol.timeoutConnection,
      H2ClientProtocol.write_to_transport,
      H2ClientProtocol.lose_connection_with_error,
      H2Connection.close_connection, H2Connection.data_to_send]
  · simp [H2ClientProtocol.timeoutConnection,
      H2ClientProtocol.write_to_transport,
      H2ClientProtocol.lose_connection_with_error,
      H2Connection.close_connection, H2Connection.data_to_send]
  · simp [H2ClientProtocol.timeoutConnection,
      H2ClientProtocol.write_to_transport,
      H2ClientProtocol.lose_connection_with_error,
      H2Connection.close_connection, H2Connection.data_to_send]

/-- C6, witness: the idle-timeout theorem applies to a concrete idle
session (no open and no active streams), where the NO_ERROR code is
chosen. -/
theorem C6_witness :
    (c6State.chosenTimeoutCode = ErrorCodes.NO_ERROR ↔
      c6State.conn.open_outbound_streams = 0 ∧
        c6State.conn.open_inbound_streams = 0 ∧
        c6State.active_streams = 0) ∧
    (c6State.chosenTimeoutCode = ErrorCodes.PROTOCOL_ERROR ↔
      ¬(c6State.conn.open_outbound_streams = 0 ∧
        c6State.conn.open_inbound_streams = 0 ∧
        c6State.active_streams = 0)) ∧
    c6State.timeoutConnection.conn.close_codes =
      c6State.conn.close_codes ++ [c6State.chosenTimeoutCode] ∧
    c6State.timeoutConnection.conn.outbound = [] ∧
    c6State.timeoutConnection.transport_written =
      c6State.transport_written ++ c6State.conn.outbound ++
        [OutFrame.goaway c6State.chosenTimeoutCode] ∧
    c6State.timeoutConnection.conn_lost_errors =
      c6State.conn_lost_errors ++ [ConnError.timeoutError] ∧
    c6State.timeoutConnection.lose_connection_called = true :=
  C6_idle_timeout c6State (by decide)

/-- C7: feeding received bytes always flushes the codec's pending outbound
frames to the transport afterwards (the finally block), including the
frames the codec queued while consuming the bytes; when the codec raises a
protocol violation, the session additionally records the failure in the
accumulated cause list and asks the transport to close. -/
theorem C7_data_received_flush (s : H2ClientProtocol) (feed : FeedResult) :
    (s.dataReceived feed).1.conn.outbound = [] ∧
    (s.dataReceived feed).1.transport_written =
      s.transport_written ++ s.conn.outbound ++ feed.produced ∧
    (match feed.result with
     | FeedOutcome.protocolError e =>
       (s.dataReceived feed).1.conn_lost_errors =
         s.conn_lost_errors ++ [ConnError.protocolError e] ∧
       (s.dataReceived feed).1.lose_connection_called = true
     | FeedOutcome.events _ => True) := by
  rcases feed with ⟨produced, result⟩
  cases result with
  | protocolError e =>
    refine ⟨rfl, ?_, rfl, rfl⟩
    simp [H2ClientProtocol.dataReceived, H2ClientProtocol.write_to_transport,
      H2ClientProtocol.lose_connection_with_error, H2Connection.data_to_send]
  | events es =>
    obtain ⟨hc, hw⟩ := handleEvents_conn_written es
      { s with conn := { s.conn with outbound := s.conn.outbound ++ produced } }
    refine ⟨rfl, ?_, trivial⟩
    simp only [H2ClientProtocol.dataReceived]
    simp [H2ClientProtocol.write_to_transport, H2Connection.data_to_send,
      hc, hw, List.append_assoc]

/-- C7, witness: the flush theorem applies to a concrete session fed a
chunk on which the codec queues a frame and raises a ProtocolError. -/
theorem C7_witness :
    (c7State.dataReceived c7Feed).1.conn.outbound = [] ∧
    (c7State.dataReceived c7Feed).1.transport_written =
      c7State.transport_written ++ c7State.conn.outbound ++
        c7Feed.produced ∧
    ((c7State.dataReceived c7Feed).1.conn_lost_errors =
      c7State.conn_lost_errors ++ [ConnError.protocolError 7] ∧
    (c7State.dataReceived c7Feed).1.lose_connection_called = true) :=
  C7_data_received_flush c7State c7Feed

/-- The admission loop changes neither the set of registered stream ids
nor the id counter. -/
lemma send_pending_keys (s : H2ClientProtocol) :
    s.send_pending_requests.streams.map Prod.fst = s.streams.map Prod.fst ∧
    s.send_pending_requests.next_stream_id = s.next_stream_id := by
  obtain ⟨k, _, _, hs2, _, _, _⟩ :=
    sendLoop_run s.pending_request_stream_pool s
  obtain ⟨_, hnext, _, _, _, _, _, _, _, _, _, _⟩ :=
    sendLoop_frame s.pending_request_stream_pool s
  constructor
  · show (H2ClientProtocol.sendLoop s
      s.pending_request_stream_pool).streams.map Prod.fst =
        s.streams.map Prod.fst
    rw [hs2, keys_initiateAll]
  · exact hnext

/-- One accepted request appends exactly one entry, keyed by the current
id counter, and advances the counter by two. -/
lemma requestAccepted_shape (s : H2ClientProtocol) (p : Nat) :
    (s.requestAccepted p).streams.map Prod.fst =
      s.streams.map Prod.fst ++ [s.next_stream_id] ∧
    (s.requestAccepted p).next_stream_id = s.next_stream_id + 2 := by
  have hmid := send_pending_keys
    { s with
      next_stream_id := s.next_stream_id + 2
      streams := s.streams ++
        [(s.next_stream_id,
          { stream_id := s.next_stream_id, request_payload := p })]
      pending_request_stream_pool :=
        s.pending_request_stream_pool ++ [s.next_stream_id] }
  constructor
  · refine Eq.trans hmid.1 ?_
    dsimp only
    rw [List.map_append]
    rfl
  · exact hmid.2

/-- C8: on a fresh connection the k-th submitted request (k = 1, 2, ...)
is registered under stream id 2k-1, so the allocated ids are exactly the
odd numbers 1, 3, 5, ... in order, no id is ever reused, and the id
counter after n submissions stands at 2n+1. -/
theorem C8_stream_id_allocation (n : Nat) :
    (submitN c8Fresh n).streams.map Prod.fst =
      (List.range n).map (fun k => 2 * k + 1) ∧
    ((submitN c8Fresh n).streams.map Prod.fst).Nodup ∧
    (submitN c8Fresh n).next_stream_id = 2 * n + 1 := by
  induction n with
  | zero => exact ⟨rfl, by decide, rfl⟩
  | succ m ih =>
    obtain ⟨hkeys, hnodup, hnext⟩ := ih
    have hshape := requestAccepted_shape (submitN c8Fresh m) 0
    rw [hkeys] at hnodup
    refine ⟨?_, ?_, ?_⟩
    · simp only [submitN]
      rw [hshape.1, hkeys, hnext]
      rw [List.range_succ, List.map_append]
      rfl
    · simp only [submitN]
      rw [hshape.1, hkeys, hnext]
      refine nodup_append_singleton _ _ hnodup ?_
      intro hmem
      obtain ⟨a, ha, hae⟩ := List.mem_map.mp hmem
      have hlt : a < m := List.mem_range.mp ha
      omega
    · simp only [submitN]
      rw [hshape.2, hnext]
      ring

/-- C8, witness: the allocation theorem applied to two submissions gives
stream ids 1 and 3 and a counter of 5. -/
theorem C8_witness :
    (submitN c8Fresh 2).streams.map Prod.fst =
      (List.range 2).map (fun k => 2 * k + 1) ∧
    ((submitN c8Fresh 2).streams.map Prod.fst).Nodup ∧
    (submitN c8Fresh 2).next_stream_id = 2 * 2 + 1 :=
  C8_stream_id_allocation 2

/-- C9: passing a non-Request value to the submit operation raises a
TypeError synchronously and leaves the session state untouched: no stream
is created, no id is consumed, nothing is enqueued. -/
theorem C9_request_type_error (s : H2ClientProtocol) (payload : Nat) :
    s.request (RequestArg.notRequest payload) =
      (s, some PyError.typeError) := rfl

/-- C9, witness: submitting a concrete non-Request value to a fresh
session yields the TypeError with the state unchanged. -/
theorem C9_witness :
    c9State.request (RequestArg.notRequest 4) =
      (c9State, some PyError.typeError) :=
  C9_request_type_error c9State 4

lemma lookupStream_mapAll (m : List (Nat × Stream)) (f : Stream → Stream)
    (j : Nat) :
    lookupStream (m.map (fun p => (p.1, f p.2))) j =
      (lookupStream m j).map f := by
  induction m with
  | nil => rfl
  | cons p rest ih =>
    obtain ⟨k, st⟩ := p
    by_cases hk : k = j <;> simp [lookupStream, hk, ih]

/-- C10: a WindowUpdated event with stream id 0 (the connection window)
applies receive_window_update to every registered stream, whereas a
WindowUpdated event with a non-zero id applies it only to the stream with
that id (all other registered streams are untouched). -/
theorem C10_window_update_dispatch (s : H2ClientProtocol) (sid : Nat)
    (h0 : sid ≠ 0) :
    (∀ j, lookupStream
        ((s.handleEvent (H2Event.WindowUpdated 0)).1).streams j =
      (lookupStream s.streams j).map Stream.receive_window_update) ∧
    lookupStream
        ((s.handleEvent (H2Event.WindowUpdated sid)).1).streams sid =
      (lookupStream s.streams sid).map Stream.receive_window_update ∧
    (∀ j, j ≠ sid →
      lookupStream
          ((s.handleEvent (H2Event.WindowUpdated sid)).1).streams j =
        lookupStream s.streams j) := by
  refine ⟨?_, ?_, ?_⟩
  · intro j
    show lookupStream
      (s.streams.map (fun p => (p.1, p.2.receive_window_update))) j =
        (lookupStream s.streams j).map Stream.receive_window_update
    exact lookupStream_mapAll s.streams Stream.receive_window_update j
  · simp only [H2ClientProtocol.handleEvent, if_neg h0]
    cases hl : lookupStream s.streams sid with
    | none => simp [hl]
    | some st => simp [hl, lookupStream_update_self]
  · intro j hj
    simp only [H2ClientProtocol.handleEvent, if_neg h0]
    cases hl : lookupStream s.streams sid with
    | none => simp [hl]
    | some st => simp [hl, lookupStream_update_ne _ _ _ _ hj]

/-- C10, witness: the window-update dispatch theorem applies to a concrete
session with streams 1 and 3 and event stream id 1. -/
theorem C10_witness :
    (∀ j, lookupStream
        ((c10State.handleEvent (H2Event.WindowUpdated 0)).1).streams j =
      (lookupStream c10State.streams j).map Stream.receive_window_update) ∧
    lookupStream
        ((c10State.handleEvent (H2Event.WindowUpdated 1)).1).streams 1 =
      (lookupStream c10State.streams 1).map Stream.receive_window_update ∧
    (∀ j, j ≠ 1 →
      lookupStream
          ((c10State.handleEvent (H2Event.WindowUpdated 1)).1).streams j =
        lookupStream c10State.streams j) :=
  C10_window_update_dispatch c10State 1 (by decide)

end Scrapy
